import Mathlib

/-!
Verification of the data-preparation fragment of the TriesteML repository
(earthquake-damage notebook): the categorical-to-integer value remapping,
the identifier-column drop, bounded CSV ingestion, and the train/test split.

The remapping, drop and ingestion are embedded directly from the notebook's
data-preparation cell.  The train/test split is delegated by the notebook to
an external library, so the SplitPartitioner component is modelled from the
specification's contract.
-/

/-- Decidable equality for `Except`, so that concrete runs of the fallible
operations can be checked by `decide`. -/
instance {ε α : Type} [DecidableEq ε] [DecidableEq α] : DecidableEq (Except ε α) :=
  fun x y =>
    match x, y with
    | Except.error e, Except.error e' =>
      if h : e = e' then isTrue (by rw [h])
      else isFalse (fun hc => h (by cases hc; rfl))
    | Except.error _, Except.ok _ => isFalse (fun hc => Except.noConfusion hc)
    | Except.ok _, Except.error _ => isFalse (fun hc => Except.noConfusion hc)
    | Except.ok a, Except.ok b =>
      if h : a = b then isTrue (by rw [h])
      else isFalse (fun hc => h (by cases hc; rfl))

namespace TriesteML

/-- A tabular cell: a numeric scalar or a categorical string, mirroring the
dynamically typed cells of the notebook's dataframes. -/
inductive Value where
  | int : Int → Value
  | str : String → Value
deriving DecidableEq, Repr

/-- A column of cells. -/
abbrev Column := List Value

/-- A dataframe: an ordered sequence of named columns, as produced by
`pd.read_csv` (header row gives the names). -/
abbrev DataFrame := List (String × Column)

/-- The column names of a dataframe, in order. -/
def names (df : DataFrame) : List String := df.map Prod.fst

/-- Number of rows of a dataframe (the length of its first column;
dataframes read from CSV are rectangular). -/
def numRows (df : DataFrame) : Nat :=
  match df with
  | [] => 0
  | p :: _ => p.2.length

/-- The notebook's `value_map`: for each categorical column, the ordered
vocabulary of recognised string values. -/
def value_map : List (String × List String) :=
  [("land_surface_condition", ["n", "o", "t"]),
   ("foundation_type", ["h", "i", "r", "u", "w"]),
   ("roof_type", ["n", "q", "x"]),
   ("ground_floor_type", ["f", "m", "v", "x", "z"]),
   ("other_floor_type", ["j", "q", "s", "x"]),
   ("position", ["j", "o", "s", "t"]),
   ("plan_configuration", ["a", "c", "d", "f", "m", "n", "o", "q", "s", "u"]),
   ("legal_ownership_status", ["a", "r", "v", "w"])]

/-- The notebook's `val_dict = dict(zip(val, np.arange(len(val))))`: each
vocabulary string is associated with its position.  The association list is
reversed so that lookups see the last binding first, matching a Python dict
built by successive insertion (later duplicate keys overwrite earlier ones). -/
def val_dict (vocab : List String) : List (String × Nat) :=
  (vocab.zip (List.range vocab.length)).reverse

/-- One cell under `Series.replace(to_replace=val_dict)`: a cell equal to a
dict key becomes the associated integer code; any other cell (an unknown
string, or a numeric cell) is left unchanged. -/
def replaceCell (d : List (String × Nat)) (c : Value) : Value :=
  match c with
  | Value.str s =>
    match d.lookup s with
    | some i => Value.int (Int.ofNat i)
    | none => c
  | Value.int _ => c

/-- A whole column under `Series.replace`. -/
def replaceColumn (vocab : List String) (col : Column) : Column :=
  col.map (replaceCell (val_dict vocab))

/-- Errors the data-preparation cell can raise: `values[key]` and
`DataFrame.drop` raise a `KeyError` when the column label is absent. -/
inductive PrepError where
  | keyError : String → PrepError
deriving DecidableEq, Repr

/-- Replace the named column in place, leaving every other column untouched
(`values[key].replace(..., inplace=True)` after a successful lookup). -/
def applyStep (df : DataFrame) (key : String) (vocab : List String) : DataFrame :=
  df.map fun p => if p.1 = key then (p.1, replaceColumn vocab p.2) else p

/-- One iteration of the remapping loop: `values[key]` raises `KeyError` when
the column is absent, otherwise the column is replaced in place. -/
def remapStep (df : DataFrame) (key : String) (vocab : List String) :
    Except PrepError DataFrame :=
  if df.lookup key = none then Except.error (PrepError.keyError key)
  else Except.ok (applyStep df key vocab)

/-- The notebook's remapping loop: `for key, val in value_map.items(): ...`,
iterating the configured columns in order. -/
def remapValues : List (String × List String) → DataFrame → Except PrepError DataFrame
  | [], df => Except.ok df
  | kv :: rest, df =>
    match remapStep df kv.1 kv.2 with
    | Except.error e => Except.error e
    | Except.ok df₁ => remapValues rest df₁

/-- The pure counterpart of the remapping loop, defined on the assumption that
every configured column is present (used to characterise `remapValues`). -/
def applyAll : List (String × List String) → DataFrame → DataFrame
  | [], df => df
  | kv :: rest, df => applyAll rest (applyStep df kv.1 kv.2)

/-- Ingestion `pd.read_csv(..., nrows=N)`: only the first `N` rows of the source are
ingested.  The source is modelled as an already parsed dataframe. -/
def readCsv (nrows : Nat) (src : DataFrame) : DataFrame :=
  src.map fun p => (p.1, p.2.take nrows)

/-- Dropping a column, `df.drop(name, axis=1, inplace=True)`: raises `KeyError` when the label
is absent, otherwise removes every column carrying that label. -/
def dropColumn (df : DataFrame) (name : String) : Except PrepError DataFrame :=
  if df.lookup name = none then Except.error (PrepError.keyError name)
  else Except.ok (df.filter fun p => decide (p.1 ≠ name))

/-- The whole data-preparation cell: read at most `N` rows from each source,
drop the `building_id` column from both, then remap the categorical columns
of the feature frame.  Each step propagates its error, as an uncaught Python
exception would. -/
def prepare (vmap : List (String × List String)) (valuesSrc labelsSrc : DataFrame)
    (N : Nat) : Except PrepError (DataFrame × DataFrame) :=
  match dropColumn (readCsv N valuesSrc) "building_id" with
  | Except.error e => Except.error e
  | Except.ok values =>
    match dropColumn (readCsv N labelsSrc) "building_id" with
    | Except.error e => Except.error e
    | Except.ok labels =>
      match remapValues vmap values with
      | Except.error e => Except.error e
      | Except.ok values => Except.ok (values, labels)

/-- A feature row (the values of one record across the feature columns). -/
abbrev Row := List Value

/-- Modelled from the spec: a Dataset is a sequence of feature Rows aligned
by position with a parallel sequence of scalar labels (spec section 3). -/
structure Dataset where
  rows : List Row
  labels : List Value
deriving DecidableEq, Repr

/-- Modelled from the spec: a Split is a pair of train/test Datasets
(spec section 3). -/
structure Split where
  train : Dataset
  test : Dataset
deriving DecidableEq, Repr

/-- Modelled from the spec: the SplitPartitioner's error conditions
(spec section 4.3). -/
inductive SplitError where
  | invalidFraction : SplitError
  | emptyDataset : SplitError
deriving DecidableEq, Repr

/-- A linear-congruential step, the deterministic pseudo-random source used
by the modelled SplitPartitioner. -/
def lcg (s : Nat) : Nat := (1103515245 * s + 12345) % 2147483648

/-- Fuelled Fisher-Yates-style shuffle: repeatedly pick the element at the
pseudo-random position and recurse on the remainder with the stepped seed. -/
def shuffleAux : Nat → Nat → List Nat → List Nat
  | 0, _, _ => []
  | _, _, [] => []
  | Nat.succ fuel, seed, x :: xs =>
    let l := x :: xs
    let a := l.get ⟨seed % l.length, Nat.mod_lt seed (Nat.succ_pos xs.length)⟩
    a :: shuffleAux fuel (lcg seed) (l.erase a)

/-- Modelled from the spec: a pseudo-random permutation of a list of row
indices, seeded deterministically by `seed` (spec section 4.3). -/
def shuffle (seed : Nat) (l : List Nat) : List Nat :=
  shuffleAux l.length seed l

/-- Modelled from the spec: the size of the test subset,
`round (f * |dataset|)` (spec section 4.3). -/
def testCount (f : ℚ) (n : Nat) : Nat := (round (f * (n : ℚ))).toNat

/-- The row-index partition: a seeded permutation of `range n`, whose first
`testCount f n` entries are the test indices and the remainder the train
indices.  Returns `(trainIdx, testIdx)`. -/
def splitIndices (n : Nat) (f : ℚ) (seed : Nat) : List Nat × List Nat :=
  let perm := shuffle seed (List.range n)
  (perm.drop (testCount f n), perm.take (testCount f n))

/-- Select the entries of `l` at the given positions (out-of-range positions
select nothing; the split only ever uses in-range positions). -/
def select (l : List α) (idx : List Nat) : List α :=
  idx.filterMap fun i => l[i]?

/-- Modelled from the spec: the SplitPartitioner contract (spec section 4.3).
Validates the fraction and non-emptiness, then partitions rows and labels by
the seeded pseudo-random index permutation. -/
def train_test_split (D : Dataset) (f : ℚ) (seed : Nat) :
    Except SplitError Split :=
  if 0 < f ∧ f < 1 then
    if D.rows.length = 0 then Except.error SplitError.emptyDataset
    else
      let p := splitIndices D.rows.length f seed
      Except.ok
        { train := { rows := select D.rows p.1, labels := select D.labels p.1 }
          test := { rows := select D.rows p.2, labels := select D.labels p.2 } }
  else Except.error SplitError.invalidFraction

/-! ### Concrete example data -/

/-- A one-row feature frame with every configured categorical column and one
numeric column. -/
def exDF : DataFrame :=
  [("land_surface_condition", [Value.str "n"]),
   ("foundation_type", [Value.str "r"]),
   ("roof_type", [Value.str "x"]),
   ("ground_floor_type", [Value.str "f"]),
   ("other_floor_type", [Value.str "q"]),
   ("position", [Value.str "s"]),
   ("plan_configuration", [Value.str "d"]),
   ("legal_ownership_status", [Value.str "v"]),
   ("age", [Value.int 25])]

/-- The frame `exDF` after the remapping loop. -/
def exDF1 : DataFrame :=
  [("land_surface_condition", [Value.int 0]),
   ("foundation_type", [Value.int 2]),
   ("roof_type", [Value.int 2]),
   ("ground_floor_type", [Value.int 0]),
   ("other_floor_type", [Value.int 1]),
   ("position", [Value.int 2]),
   ("plan_configuration", [Value.int 2]),
   ("legal_ownership_status", [Value.int 2]),
   ("age", [Value.int 25])]

/-- The frame `exDF` with an out-of-vocabulary value in `land_surface_condition`. -/
def exDFUnknown : DataFrame :=
  ("land_surface_condition", [Value.str "z"]) :: exDF.drop 1

/-- A 50-row feature source with the identifier column and every configured
categorical column. -/
def values50 : DataFrame :=
  ("building_id", List.replicate 50 (Value.int 1)) ::
    value_map.map fun kv => (kv.1, List.replicate 50 (Value.str "n"))

/-- A 49-row label source. -/
def labels49 : DataFrame :=
  [("building_id", List.replicate 49 (Value.int 1)),
   ("damage_grade", List.replicate 49 (Value.int 3))]

/-- A three-row dataset. -/
def D3 : Dataset :=
  { rows := [[Value.int 0], [Value.int 1], [Value.int 2]]
    labels := [Value.int 10, Value.int 11, Value.int 12] }

/-- A 100-row dataset. -/
def D100 : Dataset :=
  { rows := List.replicate 100 [Value.int 0]
    labels := List.replicate 100 (Value.int 1) }

/-- The empty dataset. -/
def Dempty : Dataset := { rows := [], labels := [] }

/-- The split of `D3` at fraction `1/5` with seed `0`. -/
def S3res : Split :=
  { train := { rows := [[Value.int 2], [Value.int 1]]
               labels := [Value.int 12, Value.int 11] }
    test := { rows := [[Value.int 0]], labels := [Value.int 10] } }

/-! ### Properties of the shuffle and of the index partition -/

theorem shuffleAux_perm (fuel : Nat) :
    ∀ (seed : Nat) (l : List Nat), l.length ≤ fuel → (shuffleAux fuel seed l).Perm l := by
  induction fuel with
  | zero =>
    intro seed l h
    rw [List.eq_nil_of_length_eq_zero (Nat.le_zero.mp h)]
    exact List.Perm.nil
  | succ fuel ih =>
    intro seed l h
    match l with
    | [] => exact List.Perm.nil
    | x :: xs =>
      simp only [shuffleAux]
      have hmem := List.get_mem (x :: xs) (seed % (x :: xs).length)
        (Nat.mod_lt seed (Nat.succ_pos xs.length))
      refine ((ih (lcg seed) _ ?_).cons _).trans (List.perm_cons_erase hmem).symm
      rw [List.length_erase_of_mem hmem]
      simp only [List.length_cons] at h ⊢
      omega

theorem shuffle_perm (seed : Nat) (l : List Nat) : (shuffle seed l).Perm l :=
  shuffleAux_perm l.length seed l (Nat.le_refl _)

theorem splitIndices_perm (n : Nat) (f : ℚ) (s : Nat) :
    ((splitIndices n f s).1 ++ (splitIndices n f s).2).Perm (List.range n) := by
  simp only [splitIndices]
  refine List.perm_append_comm.trans ?_
  rw [List.take_append_drop]
  exact shuffle_perm s (List.range n)

theorem splitIndices_disjoint (n : Nat) (f : ℚ) (s : Nat) :
    ∀ i ∈ (splitIndices n f s).2, i ∉ (splitIndices n f s).1 := by
  have hnd : ((splitIndices n f s).1 ++ (splitIndices n f s).2).Nodup :=
    (splitIndices_perm n f s).nodup_iff.mpr (List.nodup_range n)
  have hd := (List.nodup_append.mp hnd).2.2
  exact fun i hi h1 => hd h1 hi

theorem splitIndices_mem_lt (n : Nat) (f : ℚ) (s : Nat) (i : Nat)
    (h : i ∈ (splitIndices n f s).1 ∨ i ∈ (splitIndices n f s).2) : i < n := by
  have hmem : i ∈ (splitIndices n f s).1 ++ (splitIndices n f s).2 :=
    List.mem_append.mpr h
  exact List.mem_range.mp ((splitIndices_perm n f s).subset hmem)

theorem testCount_le (f : ℚ) (n : Nat) (h1 : f < 1) : testCount f n ≤ n := by
  rw [testCount, Int.toNat_le]
  calc round (f * (n : ℚ)) ≤ round ((n : ℚ)) := by
        rw [round_eq, round_eq]
        refine Int.floor_mono ?_
        have hn : (0 : ℚ) ≤ (n : ℚ) := Nat.cast_nonneg n
        nlinarith
    _ = (n : ℤ) := round_natCast n

theorem splitIndices_lengths (n : Nat) (f : ℚ) (s : Nat) (h1 : f < 1) :
    (splitIndices n f s).2.length = testCount f n ∧
      (splitIndices n f s).1.length = n - testCount f n := by
  have hlen : (shuffle s (List.range n)).length = n := by
    rw [(shuffle_perm s (List.range n)).length_eq, List.length_range]
  constructor
  · simp only [splitIndices]
    rw [List.length_take, hlen]
    exact Nat.min_eq_left (testCount_le f n h1)
  · simp only [splitIndices]
    rw [List.length_drop, hlen]

/-! ### Properties of row selection -/

theorem select_length {α : Type} (l : List α) (idx : List Nat)
    (h : ∀ i ∈ idx, i < l.length) : (select l idx).length = idx.length := by
  induction idx with
  | nil => rfl
  | cons i idx ih =>
    have hi : i < l.length := h i (List.mem_cons_self i idx)
    simp only [select] at ih ⊢
    rw [List.filterMap_cons_some (List.getElem?_eq_getElem hi)]
    simp only [List.length_cons]
    rw [ih (fun j hj => h j (List.mem_cons_of_mem i hj))]

theorem select_length_eq {α β : Type} (l₁ : List α) (l₂ : List β) (idx : List Nat)
    (h : l₁.length = l₂.length) : (select l₁ idx).length = (select l₂ idx).length := by
  induction idx with
  | nil => rfl
  | cons i idx ih =>
    simp only [select] at ih ⊢
    by_cases hi : i < l₁.length
    · have hi2 : i < l₂.length := by omega
      rw [List.filterMap_cons_some (List.getElem?_eq_getElem hi),
        List.filterMap_cons_some (List.getElem?_eq_getElem hi2)]
      simp only [List.length_cons]
      rw [ih]
    · rw [List.filterMap_cons_none (List.getElem?_eq_none (by omega)),
        List.filterMap_cons_none (List.getElem?_eq_none (by omega))]
      exact ih

theorem select_zip {α β : Type} (l₁ : List α) (l₂ : List β) (idx : List Nat)
    (h : l₁.length = l₂.length) :
    select (l₁.zip l₂) idx = (select l₁ idx).zip (select l₂ idx) := by
  induction idx with
  | nil => rfl
  | cons i idx ih =>
    have hz : (l₁.zip l₂).length = min l₁.length l₂.length := List.length_zip l₁ l₂
    simp only [select] at ih ⊢
    by_cases hi : i < l₁.length
    · have hi2 : i < l₂.length := by omega
      have hiz : i < (l₁.zip l₂).length := by omega
      rw [List.filterMap_cons_some (List.getElem?_eq_getElem hiz),
        List.filterMap_cons_some (List.getElem?_eq_getElem hi),
        List.filterMap_cons_some (List.getElem?_eq_getElem hi2),
        List.zip_cons_cons, ih]
      congr 1
      exact List.getElem_zip
    · rw [List.filterMap_cons_none (List.getElem?_eq_none (by omega)),
        List.filterMap_cons_none (List.getElem?_eq_none (by omega)),
        List.filterMap_cons_none (List.getElem?_eq_none (by omega))]
      exact ih

theorem mem_of_mem_select {α : Type} {l : List α} {idx : List Nat} {a : α}
    (h : a ∈ select l idx) : a ∈ l := by
  simp only [select, List.mem_filterMap] at h
  obtain ⟨i, _, hget⟩ := h
  exact List.mem_iff_getElem?.mpr ⟨i, hget⟩

/-! ### Properties of the value remapping -/

theorem replaceCell_int (d : List (String × Nat)) (n : Int) :
    replaceCell d (Value.int n) = Value.int n := rfl

theorem replaceCell_cases (d : List (String × Nat)) (c : Value) :
    replaceCell d c = c ∨ ∃ i : Int, replaceCell d c = Value.int i := by
  cases c with
  | int n => exact Or.inl rfl
  | str s =>
    simp only [replaceCell]
    cases h : d.lookup s with
    | none => exact Or.inl rfl
    | some i => exact Or.inr ⟨Int.ofNat i, rfl⟩

/-- The vocabularies applied, in loop order, to the column named `n`. -/
def vocabsFor (vmap : List (String × List String)) (n : String) : List (List String) :=
  (vmap.filter fun kv => decide (kv.1 = n)).map Prod.snd

/-- A cell after the replacements of a sequence of vocabularies. -/
def cellChain (ds : List (List String)) (c : Value) : Value :=
  ds.foldl (fun c v => replaceCell (val_dict v) c) c

/-- A column after the replacements of a sequence of vocabularies. -/
def columnChain (ds : List (List String)) (col : Column) : Column :=
  ds.foldl (fun col v => replaceColumn v col) col

theorem cellChain_int (ds : List (List String)) (n : Int) :
    cellChain ds (Value.int n) = Value.int n := by
  induction ds with
  | nil => rfl
  | cons v ds ih =>
    simp only [cellChain, List.foldl_cons, replaceCell_int]
    exact ih

theorem cellChain_cases (ds : List (List String)) :
    ∀ c : Value, (∃ i : Int, cellChain ds c = Value.int i) ∨
      (cellChain ds c = c ∧ ∀ v ∈ ds, replaceCell (val_dict v) c = c) := by
  induction ds with
  | nil =>
    intro c
    exact Or.inr ⟨rfl, fun v hv => absurd hv (List.not_mem_nil v)⟩
  | cons v ds ih =>
    intro c
    have hchain : cellChain (v :: ds) c = cellChain ds (replaceCell (val_dict v) c) := rfl
    rcases ih (replaceCell (val_dict v) c) with ⟨i, hint⟩ | ⟨hfix, hall⟩
    · exact Or.inl ⟨i, by rw [hchain, hint]⟩
    · rcases replaceCell_cases (val_dict v) c with heq | ⟨i, hi⟩
      · refine Or.inr ⟨?_, ?_⟩
        · rw [hchain, heq]
          rw [heq] at hfix
          exact hfix
        · intro v' hv'
          rcases List.mem_cons.mp hv' with hv' | hv'
          · rw [hv']
            exact heq
          · have := hall v' hv'
            rw [heq] at this
            exact this
      · refine Or.inl ⟨i, ?_⟩
        rw [hchain, hi, cellChain_int]

theorem cellChain_fix_of_mem (ds : List (List String)) (c : Value) (v : List String)
    (hv : v ∈ ds) : replaceCell (val_dict v) (cellChain ds c) = cellChain ds c := by
  rcases cellChain_cases ds c with ⟨i, hint⟩ | ⟨hfix, hall⟩
  · rw [hint]
    exact replaceCell_int _ _
  · rw [hfix]
    exact hall v hv

theorem cellChain_idem (ds : List (List String)) (c : Value) :
    cellChain ds (cellChain ds c) = cellChain ds c := by
  rcases cellChain_cases ds c with ⟨i, hint⟩ | ⟨hfix, _⟩
  · rw [hint]
    exact cellChain_int ds i
  · rw [hfix]
    exact hfix

theorem columnChain_as_map (ds : List (List String)) (col : Column) :
    columnChain ds col = col.map (cellChain ds) := by
  induction ds generalizing col with
  | nil =>
    have h1 : col.map (cellChain []) = col.map id := List.map_congr_left fun c _ => rfl
    simp [columnChain, h1]
  | cons v ds ih =>
    have hstep : columnChain (v :: ds) col = columnChain ds (replaceColumn v col) := rfl
    rw [hstep, ih, replaceColumn, List.map_map]
    refine List.map_congr_left fun c _ => ?_
    rfl

theorem columnChain_idem (ds : List (List String)) (col : Column) :
    columnChain ds (columnChain ds col) = columnChain ds col := by
  simp only [columnChain_as_map, List.map_map]
  exact List.map_congr_left fun c _ => cellChain_idem ds c

theorem vocabsFor_cons (kv : String × List String) (rest : List (String × List String))
    (n : String) :
    vocabsFor (kv :: rest) n =
      if kv.1 = n then kv.2 :: vocabsFor rest n else vocabsFor rest n := by
  by_cases h : kv.1 = n <;> simp [vocabsFor, List.filter_cons, h]

theorem applyAll_eq (vmap : List (String × List String)) (df : DataFrame) :
    applyAll vmap df = df.map fun p => (p.1, columnChain (vocabsFor vmap p.1) p.2) := by
  induction vmap generalizing df with
  | nil =>
    simp [applyAll, vocabsFor, columnChain]
  | cons kv rest ih =>
    simp only [applyAll, applyStep, ih, List.map_map]
    refine List.map_congr_left fun p _ => ?_
    simp only [Function.comp_apply, vocabsFor_cons]
    by_cases hp : p.1 = kv.1
    · rw [if_pos hp, if_pos hp.symm]
      rfl
    · rw [if_neg hp, if_neg fun h => hp h.symm]

theorem lookup_eq_none_iff {β : Type} (l : List (String × β)) (k : String) :
    l.lookup k = none ↔ k ∉ l.map Prod.fst := by
  induction l with
  | nil => simp [List.lookup]
  | cons p l ih =>
    obtain ⟨a, b⟩ := p
    by_cases h : k = a
    · subst h
      simp [List.lookup]
    · have hb : (k == a) = false := beq_eq_false_iff_ne.mpr h
      simp [List.lookup, hb, h, ih]

theorem names_applyStep (df : DataFrame) (key : String) (vocab : List String) :
    names (applyStep df key vocab) = names df := by
  simp only [names, applyStep, List.map_map]
  refine List.map_congr_left fun p _ => ?_
  simp only [Function.comp_apply]
  by_cases hp : p.1 = key
  · rw [if_pos hp]
  · rw [if_neg hp]

theorem remapValues_ok_eq (vmap : List (String × List String)) :
    ∀ df df', remapValues vmap df = Except.ok df' → df' = applyAll vmap df := by
  induction vmap with
  | nil =>
    intro df df' h
    simp only [remapValues] at h
    cases h
    rfl
  | cons kv rest ih =>
    intro df df' h
    simp only [remapValues, remapStep] at h
    by_cases hl : df.lookup kv.1 = none
    · simp [hl] at h
    · rw [if_neg hl] at h
      have h' : remapValues rest (applyStep df kv.1 kv.2) = Except.ok df' := h
      exact ih _ _ h'

theorem remapValues_keys (vmap : List (String × List String)) :
    ∀ df df', remapValues vmap df = Except.ok df' →
      ∀ k ∈ vmap.map Prod.fst, k ∈ names df := by
  induction vmap with
  | nil =>
    intro df df' _ k hk
    simp at hk
  | cons kv rest ih =>
    intro df df' h k hk
    simp only [remapValues, remapStep] at h
    by_cases hl : df.lookup kv.1 = none
    · simp [hl] at h
    · rw [if_neg hl] at h
      have h' : remapValues rest (applyStep df kv.1 kv.2) = Except.ok df' := h
      simp only [List.map_cons, List.mem_cons] at hk
      rcases hk with rfl | hk
      · by_contra hc
        exact hl ((lookup_eq_none_iff df kv.1).mpr hc)
      · have hmem := ih _ _ h' k hk
        rw [names_applyStep] at hmem
        exact hmem

theorem remapValues_total (vmap : List (String × List String)) :
    ∀ df, (∀ k ∈ vmap.map Prod.fst, k ∈ names df) →
      remapValues vmap df = Except.ok (applyAll vmap df) := by
  induction vmap with
  | nil =>
    intro df _
    rfl
  | cons kv rest ih =>
    intro df hkeys
    have hk : kv.1 ∈ names df := hkeys kv.1 (by simp)
    have hl : ¬df.lookup kv.1 = none := fun hc => (lookup_eq_none_iff df kv.1).mp hc hk
    simp only [remapValues, remapStep, if_neg hl]
    exact ih (applyStep df kv.1 kv.2) fun k hkk => by
      rw [names_applyStep]
      exact hkeys k (by simp only [List.map_cons, List.mem_cons]; exact Or.inr hkk)

theorem names_remapValues (vmap : List (String × List String)) (df df' : DataFrame)
    (h : remapValues vmap df = Except.ok df') : names df' = names df := by
  rw [remapValues_ok_eq vmap df df' h, applyAll_eq]
  simp only [names, List.map_map]
  exact List.map_congr_left fun p _ => rfl

theorem applyAll_idem (vmap : List (String × List String)) (df : DataFrame) :
    applyAll vmap (applyAll vmap df) = applyAll vmap df := by
  simp only [applyAll_eq, List.map_map]
  refine List.map_congr_left fun p _ => ?_
  simp only [Function.comp_apply]
  rw [columnChain_idem]

theorem vocabsFor_eq_nil (vmap : List (String × List String)) (n : String)
    (h : n ∉ vmap.map Prod.fst) : vocabsFor vmap n = [] := by
  have hf : (vmap.filter fun kv => decide (kv.1 = n)) = [] := by
    rw [List.filter_eq_nil_iff]
    intro kv hkv
    simp only [decide_eq_true_eq]
    intro he
    exact h (List.mem_map.mpr ⟨kv, hkv, he⟩)
  simp only [vocabsFor, hf, List.map_nil]

theorem not_mem_names_dropColumn (df : DataFrame) (name : String) (d : DataFrame)
    (h : dropColumn df name = Except.ok d) : name ∉ names d := by
  simp only [dropColumn] at h
  by_cases hl : df.lookup name = none
  · rw [if_pos hl] at h
    cases h
  · rw [if_neg hl] at h
    cases h
    intro hmem
    simp only [names, List.mem_map] at hmem
    obtain ⟨p, hp, hfst⟩ := hmem
    have hfilter := List.of_mem_filter hp
    simp only [decide_eq_true_eq] at hfilter
    exact hfilter hfst

/-! ### Claims about the CategoryEncoder -/

/-- Claim C1: For every categorical column configured in the vocabulary map and
every cell value occurring in the column's vocabulary, the remapping replaces
that string value with the integer index of the string in the vocabulary, and
indexing the vocabulary at that code recovers the original string. -/
theorem encode_vocab_value_to_index :
    ∀ p ∈ value_map, ∀ v ∈ p.2,
      replaceCell (val_dict p.2) (Value.str v) = Value.int (p.2.indexOf v) ∧
        p.2[p.2.indexOf v]? = some v := by
  decide

/-- Witness for C1: with vocabulary `["n", "o", "t"]` for
`land_surface_condition`, the value `"o"` encodes to `1`, and the vocabulary
at position `1` is `"o"` again. -/
theorem encode_vocab_value_to_index_witness :
    replaceCell (val_dict ["n", "o", "t"]) (Value.str "o") = Value.int 1 ∧
      (["n", "o", "t"] : List String)[(1 : Nat)]? = some "o" := by
  have h := encode_vocab_value_to_index ("land_surface_condition", ["n", "o", "t"])
    (by decide) "o" (by decide)
  have hidx : (["n", "o", "t"] : List String).indexOf "o" = 1 := by decide
  rw [hidx] at h
  exact h

/-- Claim C2, counter-evidence: Running the remapping loop on a frame whose
`land_surface_condition` cell holds `"z"`, a value absent from the column's
vocabulary, does not fail: it returns a frame with the unknown string left in
place, unencoded. -/
theorem encode_unknown_value_passthrough :
    (remapValues value_map exDFUnknown).map
        (fun d => d.lookup "land_surface_condition") =
      Except.ok (some [Value.str "z"]) := by
  decide

/-- Claim C9: The remapping has no effect beyond the configured columns: every
dataframe entry whose column name is not a key of the vocabulary map is
returned unchanged, at its original position.  (The vocabulary map itself is
an immutable input of the loop: each iteration builds a fresh dictionary from
it and never writes to it.) -/
theorem remap_preserves_unconfigured_columns (vmap : List (String × List String))
    (df df' : DataFrame) (h : remapValues vmap df = Except.ok df') (i : Nat)
    (p : String × Column) (hget : df[i]? = some p)
    (hp : p.1 ∉ vmap.map Prod.fst) : df'[i]? = some p := by
  rw [remapValues_ok_eq vmap df df' h, applyAll_eq, List.getElem?_map, hget]
  simp only [Option.map_some']
  rw [vocabsFor_eq_nil vmap p.1 hp]
  simp [columnChain]

/-- Witness for C9: in the example frame, the unconfigured `age` column is
untouched by the remapping loop. -/
theorem remap_preserves_unconfigured_columns_witness :
    exDF1[(8 : Nat)]? = some ("age", [Value.int 25]) :=
  remap_preserves_unconfigured_columns value_map exDF exDF1 (by decide) 8
    ("age", [Value.int 25]) (by decide) (by decide)

/-- Claim C10: The remapping loop is idempotent: if it maps a dataframe to
`df'`, running it again on `df'` succeeds and returns `df'` unchanged, since
every replaced cell is an integer matching no string key and every surviving
string matches no key of any dictionary applied to its column. -/
theorem remap_idempotent (vmap : List (String × List String)) (df df' : DataFrame)
    (h : remapValues vmap df = Except.ok df') :
    remapValues vmap df' = Except.ok df' := by
  have hkeys := remapValues_keys vmap df df' h
  have hnames := names_remapValues vmap df df' h
  have heq := remapValues_ok_eq vmap df df' h
  have hkeys' : ∀ k ∈ vmap.map Prod.fst, k ∈ names df' := fun k hk => by
    rw [hnames]
    exact hkeys k hk
  rw [remapValues_total vmap df' hkeys', heq, applyAll_idem]

/-- Witness for C10: remapping the already-remapped example frame returns it
unchanged. -/
theorem remap_idempotent_witness :
    remapValues value_map exDF1 = Except.ok exDF1 :=
  remap_idempotent value_map exDF exDF1 (by decide)

/-! ### Claims about the DatasetLoader -/

/-- Claim C6: Whenever the data-preparation cell succeeds, the `building_id`
identifier column appears in neither the resulting feature frame nor the
resulting label frame: it is dropped from both sources before the encoded
features reach any downstream computation. -/
theorem prepare_drops_identifier (vmap : List (String × List String))
    (vs ls : DataFrame) (N : Nat) (v l : DataFrame)
    (h : prepare vmap vs ls N = Except.ok (v, l)) :
    "building_id" ∉ names v ∧ "building_id" ∉ names l := by
  simp only [prepare] at h
  cases h1 : dropColumn (readCsv N vs) "building_id" with
  | error e => rw [h1] at h; cases h
  | ok v1 =>
    simp only [h1] at h
    cases h2 : dropColumn (readCsv N ls) "building_id" with
    | error e => rw [h2] at h; cases h
    | ok l1 =>
      simp only [h2] at h
      cases h3 : remapValues vmap v1 with
      | error e => rw [h3] at h; cases h
      | ok v2 =>
        simp only [h3] at h
        injection h with h
        rw [Prod.mk.injEq] at h
        obtain ⟨rfl, rfl⟩ := h
        constructor
        · rw [names_remapValues vmap v1 _ h3]
          exact not_mem_names_dropColumn _ _ _ h1
        · exact not_mem_names_dropColumn _ _ _ h2

/-- Witness for C6: preparing a concrete pair of sources yields frames
without the identifier column. -/
theorem prepare_drops_identifier_witness :
    "building_id" ∉ names exDF1 ∧
      "building_id" ∉ names [("damage_grade", [Value.int 3])] :=
  prepare_drops_identifier value_map (("building_id", [Value.int 7]) :: exDF)
    [("building_id", [Value.int 7]), ("damage_grade", [Value.int 3])] 50000
    exDF1 [("damage_grade", [Value.int 3])] (by decide)

/-- Claim C7, counter-evidence: The data-preparation cell performs no row-count
comparison: on a 50-row feature source and a 49-row label source it succeeds
and returns the mismatched pair.  A configured categorical column absent from
the feature source makes the remapping loop fail with a `KeyError` naming the
column, not a schema error. -/
theorem prepare_no_row_count_check :
    (prepare value_map values50 labels49 50000).map
        (fun p => (numRows p.1, numRows p.2)) = Except.ok (50, 49) ∧
      remapValues value_map [("age", [Value.int 1])] =
        Except.error (PrepError.keyError "land_surface_condition") := by
  exact ⟨by decide, by decide⟩

/-! ### Claims about the SplitPartitioner -/

/-- Claim C3: For every dataset with at least one row and every fraction
`0 < f < 1`, the split succeeds with a test subset of exactly
`round (f * |D|)` rows and a train subset of the remaining
`|D| - round (f * |D|)` rows; no row index lies in both index sets, and
together the two index sets are exactly the full index range of the
dataset. -/
theorem split_sizes_and_partition (D : Dataset) (f : ℚ) (s : Nat)
    (h0 : 0 < f) (h1 : f < 1) (hn : 0 < D.rows.length) :
    (train_test_split D f s).map
        (fun S => (S.test.rows.length, S.train.rows.length)) =
      Except.ok (testCount f D.rows.length,
        D.rows.length - testCount f D.rows.length) ∧
      (∀ i ∈ (splitIndices D.rows.length f s).2,
        i ∉ (splitIndices D.rows.length f s).1) ∧
      ((splitIndices D.rows.length f s).2 ++
          (splitIndices D.rows.length f s).1).Perm
        (List.range D.rows.length) := by
  refine ⟨?_, splitIndices_disjoint D.rows.length f s, ?_⟩
  · rw [train_test_split, if_pos ⟨h0, h1⟩, if_neg (Nat.pos_iff_ne_zero.mp hn)]
    show Except.ok
        ((select D.rows (splitIndices D.rows.length f s).2).length,
          (select D.rows (splitIndices D.rows.length f s).1).length) =
      Except.ok (testCount f D.rows.length,
        D.rows.length - testCount f D.rows.length)
    have ht : ∀ i ∈ (splitIndices D.rows.length f s).2, i < D.rows.length :=
      fun i hi => splitIndices_mem_lt D.rows.length f s i (Or.inr hi)
    have htr : ∀ i ∈ (splitIndices D.rows.length f s).1, i < D.rows.length :=
      fun i hi => splitIndices_mem_lt D.rows.length f s i (Or.inl hi)
    have hlen := splitIndices_lengths D.rows.length f s h1
    rw [select_length D.rows _ ht, select_length D.rows _ htr, hlen.1, hlen.2]
  · exact List.perm_append_comm.trans (splitIndices_perm D.rows.length f s)

/-- Witness for C3: 100 rows at fraction `1/5` give 20 test and 80 train
rows. -/
theorem split_sizes_and_partition_witness :
    (train_test_split D100 (1/5) 0).map
        (fun S => (S.test.rows.length, S.train.rows.length)) =
      Except.ok (20, 80) := by
  have h := (split_sizes_and_partition D100 (1/5) 0 (by norm_num) (by norm_num)
    (by decide)).1
  have hD : D100.rows.length = 100 := by decide
  rw [h, hD]
  have htc : testCount (1/5) 100 = 20 := by
    rw [testCount]
    norm_num [round_eq]
    rfl
  rw [htc]

/-- Claim C4: The split is deterministic in its arguments: two calls with the
same dataset, fraction and seed produce identical results and identical
train/test index assignments. -/
theorem split_deterministic (D₁ D₂ : Dataset) (f₁ f₂ : ℚ) (s₁ s₂ : Nat)
    (hD : D₁ = D₂) (hf : f₁ = f₂) (hs : s₁ = s₂) :
    train_test_split D₁ f₁ s₁ = train_test_split D₂ f₂ s₂ ∧
      splitIndices D₁.rows.length f₁ s₁ = splitIndices D₂.rows.length f₂ s₂ := by
  subst hD
  subst hf
  subst hs
  exact ⟨rfl, rfl⟩

/-- Witness for C4: two identical calls on the example dataset coincide. -/
theorem split_deterministic_witness :
    train_test_split D3 (1/5) 0 = train_test_split D3 (1/5) 0 ∧
      splitIndices D3.rows.length (1/5) 0 = splitIndices D3.rows.length (1/5) 0 :=
  split_deterministic D3 D3 (1/5) (1/5) 0 0 rfl rfl rfl

/-- Claim C5: On an aligned dataset, the split preserves the feature/label
pairing within each subset: train and test each carry as many labels as rows,
and every (row, label) pair of a subset is a (row, label) pair of the input
dataset. -/
theorem split_preserves_pairing (D : Dataset) (f : ℚ) (s : Nat) (S : Split)
    (hlen : D.rows.length = D.labels.length)
    (h : train_test_split D f s = Except.ok S) :
    S.train.rows.length = S.train.labels.length ∧
      S.test.rows.length = S.test.labels.length ∧
      (∀ p ∈ S.train.rows.zip S.train.labels, p ∈ D.rows.zip D.labels) ∧
      (∀ p ∈ S.test.rows.zip S.test.labels, p ∈ D.rows.zip D.labels) := by
  rw [train_test_split] at h
  by_cases hf : 0 < f ∧ f < 1
  · rw [if_pos hf] at h
    by_cases hn : D.rows.length = 0
    · rw [if_pos hn] at h
      cases h
    · rw [if_neg hn] at h
      injection h with h
      subst h
      refine ⟨select_length_eq D.rows D.labels _ hlen,
        select_length_eq D.rows D.labels _ hlen, ?_, ?_⟩
      · intro p hp
        rw [← select_zip D.rows D.labels _ hlen] at hp
        exact mem_of_mem_select hp
      · intro p hp
        rw [← select_zip D.rows D.labels _ hlen] at hp
        exact mem_of_mem_select hp
  · rw [if_neg hf] at h
    cases h

/-- The split of the example dataset `D3`, computed explicitly. -/
theorem split_D3_eq : train_test_split D3 (1/5) 0 = Except.ok S3res := by
  have hidx : splitIndices D3.rows.length (1/5) 0 = ([2, 1], [0]) := by
    have htc : testCount (1/5) D3.rows.length = 1 := by
      show testCount (1/5) 3 = 1
      rw [testCount]
      norm_num [round_eq]
    show ((shuffle 0 (List.range D3.rows.length)).drop
            (testCount (1/5) D3.rows.length),
          (shuffle 0 (List.range D3.rows.length)).take
            (testCount (1/5) D3.rows.length)) = ([2, 1], [0])
    rw [htc]
    decide
  rw [train_test_split, if_pos (by norm_num : (0:ℚ) < 1/5 ∧ (1:ℚ)/5 < 1),
    if_neg (by decide : ¬D3.rows.length = 0)]
  show Except.ok
      { train := { rows := select D3.rows (splitIndices D3.rows.length (1/5) 0).1
                   labels := select D3.labels (splitIndices D3.rows.length (1/5) 0).1 }
        test := { rows := select D3.rows (splitIndices D3.rows.length (1/5) 0).2
                  labels := select D3.labels (splitIndices D3.rows.length (1/5) 0).2 } } =
    Except.ok S3res
  rw [hidx]
  decide

/-- Witness for C5: in the concrete split of `D3`, the train subset has as
many labels as rows, and a train pair is a pair of the input dataset. -/
theorem split_preserves_pairing_witness :
    train_test_split D3 (1/5) 0 = Except.ok S3res ∧
      S3res.train.rows.length = S3res.train.labels.length ∧
      ([Value.int 2], Value.int 12) ∈ D3.rows.zip D3.labels := by
  have h := split_preserves_pairing D3 (1/5) 0 S3res rfl split_D3_eq
  exact ⟨split_D3_eq, h.1, h.2.2.1 ([Value.int 2], Value.int 12) (by decide)⟩

/-- Claim C8: The split fails with `InvalidFractionError` whenever the fraction
lies outside the open interval `(0, 1)`, and with `EmptyDatasetError` when
the fraction is valid but the dataset has zero rows. -/
theorem split_error_conditions (D : Dataset) (f : ℚ) (s : Nat) :
    (¬(0 < f ∧ f < 1) →
        train_test_split D f s = Except.error SplitError.invalidFraction) ∧
      ((0 < f ∧ f < 1) → D.rows.length = 0 →
        train_test_split D f s = Except.error SplitError.emptyDataset) := by
  constructor
  · intro hf
    rw [train_test_split, if_neg hf]
  · intro hf hn
    rw [train_test_split, if_pos hf, if_pos hn]

/-- Witness for C8: the fraction `3/2` is rejected as invalid, and the empty
dataset is rejected as empty. -/
theorem split_error_conditions_witness :
    train_test_split D3 (3/2) 0 = Except.error SplitError.invalidFraction ∧
      train_test_split Dempty (1/5) 0 = Except.error SplitError.emptyDataset :=
  ⟨(split_error_conditions D3 (3/2) 0).1 (by norm_num),
   (split_error_conditions Dempty (1/5) 0).2 (by norm_num) rfl⟩

end TriesteML
